import Mathlib

/-!
# Verification of the cucumber-js Test Case Runner

A shallow embedding of the Test Case Runner of cucumber-js: the state
machine that executes one scenario attempt (and its retries) and emits the
four-record envelope lifecycle (testCaseStarted, testStepStarted,
testStepFinished, testCaseFinished).

The repository snapshot under verification contains the runner's test spec
(`src/runtime/test_case_runner_spec.ts`) but not the runner implementation
itself, so the runner and executor below are modelled from the
specification (spec.md §3, §4.1-§4.4) and checked against the behaviours
the test spec pins down.  Durations and timestamps are tick counts
(milliseconds) threaded through an explicit clock value; identifiers are
natural numbers produced by an incrementing counter, mirroring
`IdGenerator.incrementing()` used by the test spec.
-/

namespace Cucumber

/-- Modelled from the spec: the result-status enumeration
`{UNKNOWN, PASSED, SKIPPED, PENDING, UNDEFINED, AMBIGUOUS, FAILED}` (§3). -/
inductive Status where
  | unknown
  | passed
  | skipped
  | pending
  | undefined
  | ambiguous
  | failed
deriving DecidableEq, Repr

/-- Modelled from the spec: the fixed total precedence order
`UNKNOWN < PASSED < SKIPPED < PENDING < UNDEFINED < AMBIGUOUS < FAILED` (§3). -/
def Status.rank : Status → Nat
  | .unknown => 0
  | .passed => 1
  | .skipped => 2
  | .pending => 3
  | .undefined => 4
  | .ambiguous => 5
  | .failed => 6

/-- Modelled from the spec: worst-wins aggregation over the precedence order (§3, §4.1). -/
def Status.worst (a b : Status) : Status :=
  if a.rank < b.rank then b else a

/-- The structured exception attached to a failed step result
(`{type, message, stackTrace}` of `@cucumber/messages`). -/
structure StepException where
  etype : String
  message : Option String
  stackTrace : Option String
deriving DecidableEq, Repr

/-- `TestStepResult`: `{status, duration, message?, exception?}` (§3). -/
structure TestStepResult where
  status : Status
  duration : Nat
  message : Option String := none
  exception : Option StepException := none
deriving DecidableEq, Repr

/-- The four lifecycle envelope records (§4.4, §6). -/
inductive Envelope where
  | testCaseStarted (id : Nat) (testCaseId : Nat) (attempt : Nat)
      (timestamp : Nat) (workerId : Option String)
  | testStepStarted (testCaseStartedId : Nat) (testStepId : Nat) (timestamp : Nat)
  | testStepFinished (testCaseStartedId : Nat) (testStepId : Nat)
      (testStepResult : TestStepResult) (timestamp : Nat)
  | testCaseFinished (testCaseStartedId : Nat) (timestamp : Nat) (willBeRetried : Bool)
deriving DecidableEq, Repr

/-- A value thrown by a step or hook definition: either a plain string
(which carries no stack trace) or an `Error` with a message and an
optional stack trace. -/
inductive ErrVal where
  | str (s : String)
  | err (message : String) (stack : Option String)
deriving DecidableEq, Repr

/-- The display text of a thrown value. -/
def ErrVal.text : ErrVal → String
  | .str s => s
  | .err m _ => m

/-- The stack trace carried by a thrown value, if any. -/
def ErrVal.stack : ErrVal → Option String
  | .str _ => none
  | .err _ st => st

/-- What one invocation of a user definition does: return normally, throw
a value, or signal "pending". -/
inductive Outcome where
  | pass
  | thrown (v : ErrVal)
  | pendingSignal

/-- The behaviour of one invocation: the clock ticks it consumes and its
outcome. -/
structure StepBehavior where
  duration : Nat
  outcome : Outcome

/-- A step definition bound to a pickle step: its pattern, source location,
and behaviour as a function of the attempt index (a flaky definition may
behave differently on a retry). -/
structure StepDef where
  pattern : String
  location : String
  behavior : Nat → StepBehavior

/-- A hook definition (Before / After / BeforeStep / AfterStep body). -/
structure HookDef where
  behavior : Nat → StepBehavior

/-- The kind of a hook, for the invocation log. -/
inductive HookKind where
  | before
  | after
  | beforeStep
  | afterStep
deriving DecidableEq, Repr

/-- One recorded hook invocation with the argument fields the claims are
about: the accumulated `error`, the step `result` (AfterStep only), and
`willBeRetried` (After only).  Modelled from the spec's hook parameter
contract (§4.3). -/
structure HookCall where
  kind : HookKind
  error : Option ErrVal
  result : Option TestStepResult
  willBeRetried : Option Bool
deriving DecidableEq, Repr

/-- Modelled from the spec: the assembled `TestCase` the runner consumes:
Before-hook steps, then pickle steps, then After-hook steps, each test
step carrying its stable identifier (§3, §4.3).  BeforeStep/AfterStep
hooks are not test steps; they live in `RunnerOptions`. -/
structure TestCase where
  testCaseId : Nat
  beforeHooks : List (Nat × HookDef)
  pickleSteps : List (Nat × List StepDef)
  afterHooks : List (Nat × HookDef)

/-- Modelled from the spec: the per-run invocation context: worker id,
retry budget, dry-run flag, stack-trace filtering, and the step hooks that
wrap every pickle step (§3 RunnerInvocationContext). -/
structure RunnerOptions where
  workerId : Option String := none
  retries : Nat := 0
  skip : Bool := false
  filterStackTraces : Bool := false
  beforeStepHooks : List HookDef := []
  afterStepHooks : List HookDef := []

/-- Modelled from the spec: the exception recorded for a thrown value: if
the value is not already a structured error it is wrapped with
`type="Error"`; the stack trace is omitted when filtering is requested or
when the thrown value carries none (§4.2). -/
def formatException (filter : Bool) (v : ErrVal) : StepException :=
  { etype := "Error", message := some v.text,
    stackTrace := if filter then none else v.stack }

/-- Modelled from the spec: the executor's classification of one actual
invocation: success → PASSED, thrown value → FAILED with message and
wrapped exception, pending signal → PENDING; duration is the elapsed
ticks (§4.2). -/
def invokeBehavior (filter : Bool) (b : StepBehavior) : TestStepResult :=
  match b.outcome with
  | .pass => { status := .passed, duration := b.duration }
  | .thrown v =>
      { status := .failed, duration := b.duration,
        message := some v.text, exception := some (formatException filter v) }
  | .pendingSignal => { status := .pending, duration := b.duration }

/-- Keep the first failure encountered in the attempt (§4.3: `error` is
the first failure encountered so far). -/
def updateError (fe : Option ErrVal) : Outcome → Option ErrVal
  | .thrown v => match fe with
    | some e => some e
    | none => some v
  | _ => fe

/-- Modelled from the spec: the AMBIGUOUS message lists every matching
definition with its pattern and source location, one per line (§4.2). -/
def ambiguousMessage (ds : List StepDef) : String :=
  String.intercalate "\n"
    ("Multiple step definitions match:" ::
      ds.map (fun d => "  " ++ d.pattern ++ " - " ++ d.location))

/-- The outcome of running a list of BeforeStep or AfterStep hooks. -/
structure StepHooksOut where
  clock : Nat
  calls : List HookCall
  worst : Status
  durSum : Nat
  firstError : Option ErrVal

/-- Modelled from the spec: run the BeforeStep or AfterStep hooks of one
pickle step in order.  Step hooks emit no envelopes of their own; their
durations and statuses are merged into the wrapped step's result (§4.3). -/
def runStepHooks (filter : Bool) (attempt : Nat) (kind : HookKind)
    (resultArg : Option TestStepResult) (hooks : List HookDef)
    (clock : Nat) (firstError : Option ErrVal) : StepHooksOut :=
  match hooks with
  | [] => ⟨clock, [], .unknown, 0, firstError⟩
  | h :: rest =>
      let b := h.behavior attempt
      let r := invokeBehavior filter b
      let call : HookCall := ⟨kind, firstError, resultArg, none⟩
      let fe := updateError firstError b.outcome
      let out := runStepHooks filter attempt kind resultArg rest (clock + b.duration) fe
      ⟨out.clock, call :: out.calls, r.status.worst out.worst,
        b.duration + out.durSum, out.firstError⟩

/-- The running state of one attempt: clock, blocking-skip flag, first
error, the emitted envelopes so far, the hook-invocation log, the
step-definition invocation log (testStepId × attempt), and the worst
pickle-step / hook statuses (§4.1, §4.3). -/
structure RunState where
  clock : Nat
  shouldSkip : Bool
  firstError : Option ErrVal
  envelopes : List Envelope
  hookCalls : List HookCall
  invocations : List (Nat × Nat)
  pickleWorst : Status
  hookWorst : Status

/-- Modelled from the spec: evaluate one Before or After hook test step:
in dry-run every step is recorded SKIPPED without invocation; a Before
hook is also SKIPPED once the blocking flag is set, while After hooks
always execute, receiving the accumulated error and the `willBeRetried`
hint (§4.1, §4.3). -/
def caseHookEval (cfg : RunnerOptions) (attempt : Nat) (isBefore : Bool)
    (wbr : Option Bool) (shouldSkip : Bool) (firstError : Option ErrVal)
    (h : HookDef) (clock : Nat) :
    TestStepResult × List HookCall × Nat × Option ErrVal :=
  if cfg.skip || (isBefore && shouldSkip) then
    ({ status := .skipped, duration := 0 }, [], clock, firstError)
  else
    let b := h.behavior attempt
    let r := invokeBehavior cfg.filterStackTraces b
    let call : HookCall :=
      ⟨if isBefore then .before else .after, firstError, none, wbr⟩
    (r, [call], clock + b.duration, updateError firstError b.outcome)

/-- Modelled from the spec: run one Before or After hook test step,
emitting its step-started / step-finished envelope pair; a non-PASSED
Before-hook result raises the blocking-skip flag (§4.1, §4.3, §4.4). -/
def runCaseHookStep (cfg : RunnerOptions) (attempt : Nat) (cid : Nat)
    (isBefore : Bool) (wbr : Option Bool)
    (s : RunState) (step : Nat × HookDef) : RunState :=
  let out := caseHookEval cfg attempt isBefore wbr s.shouldSkip s.firstError step.2 s.clock
  { s with
    clock := out.2.2.1,
    envelopes := s.envelopes ++
      [.testStepStarted cid step.1 s.clock,
       .testStepFinished cid step.1 out.1 out.2.2.1],
    hookCalls := s.hookCalls ++ out.2.1,
    hookWorst := s.hookWorst.worst out.1.status,
    shouldSkip := s.shouldSkip || (isBefore && decide (out.1.status ≠ .passed)),
    firstError := out.2.2.2 }

/-- Modelled from the spec: evaluate one pickle step (§4.1-§4.3):
zero bound definitions → UNDEFINED, zero duration, no invocation;
two or more → AMBIGUOUS, zero duration, the listing message, no
invocation; exactly one → SKIPPED without invocation in dry-run or once
the blocking flag is set, otherwise BeforeStep hooks → invocation →
AfterStep hooks, statuses worst-merged and durations summed.  Returns the
recorded result, the step-hook calls, the definition invocations, the new
clock and the new first error. -/
def pickleEval (cfg : RunnerOptions) (attempt : Nat) (sid : Nat)
    (shouldSkip : Bool) (firstError : Option ErrVal)
    (defs : List StepDef) (clock : Nat) :
    TestStepResult × List HookCall × List (Nat × Nat) × Nat × Option ErrVal :=
  match defs with
  | [] => ({ status := .undefined, duration := 0 }, [], [], clock, firstError)
  | [d] =>
      if cfg.skip || shouldSkip then
        ({ status := .skipped, duration := 0 }, [], [], clock, firstError)
      else
        let bs := runStepHooks cfg.filterStackTraces attempt .beforeStep none
          cfg.beforeStepHooks clock firstError
        if bs.worst = .failed then
          let as0 := runStepHooks cfg.filterStackTraces attempt .afterStep none
            cfg.afterStepHooks bs.clock bs.firstError
          ({ status := bs.worst.worst as0.worst, duration := bs.durSum + as0.durSum },
            bs.calls ++ as0.calls, [], as0.clock, as0.firstError)
        else
          let b := d.behavior attempt
          let r0 := invokeBehavior cfg.filterStackTraces b
          let fe2 := updateError bs.firstError b.outcome
          let stepRes : TestStepResult :=
            { status := bs.worst.worst r0.status, duration := bs.durSum + b.duration,
              message := r0.message, exception := r0.exception }
          let as0 := runStepHooks cfg.filterStackTraces attempt .afterStep
            (some stepRes) cfg.afterStepHooks (bs.clock + b.duration) fe2
          ({ stepRes with
              status := stepRes.status.worst as0.worst,
              duration := stepRes.duration + as0.durSum },
            bs.calls ++ as0.calls, [(sid, attempt)], as0.clock, as0.firstError)
  | ds => ({ status := .ambiguous, duration := 0, message := some (ambiguousMessage ds) },
      [], [], clock, firstError)

/-- Modelled from the spec: run one pickle step, emitting its
step-started / step-finished envelope pair; any non-PASSED recorded
result raises the blocking-skip flag (§4.1, §4.4). -/
def runPickleStep (cfg : RunnerOptions) (attempt : Nat) (cid : Nat)
    (s : RunState) (step : Nat × List StepDef) : RunState :=
  let out := pickleEval cfg attempt step.1 s.shouldSkip s.firstError step.2 s.clock
  { s with
    clock := out.2.2.2.1,
    envelopes := s.envelopes ++
      [.testStepStarted cid step.1 s.clock,
       .testStepFinished cid step.1 out.1 out.2.2.2.1],
    hookCalls := s.hookCalls ++ out.2.1,
    invocations := s.invocations ++ out.2.2.1,
    pickleWorst := s.pickleWorst.worst out.1.status,
    shouldSkip := s.shouldSkip || decide (out.1.status ≠ .passed),
    firstError := out.2.2.2.2 }

/-- The outcome of one attempt. -/
structure AttemptOut where
  envelopes : List Envelope
  hookCalls : List HookCall
  invocations : List (Nat × Nat)
  aggregate : Status
  willBeRetried : Bool
  clock : Nat
  nextId : Nat

/-- Modelled from the spec: the state at the start of an attempt: fresh
blocking flag and error, and the case-started envelope already emitted
with a fresh id `nid` from the incrementing generator (§4.3, §4.4). -/
def initialState (cfg : RunnerOptions) (tc : TestCase)
    (attempt clock nid : Nat) : RunState :=
  ⟨clock, false, none,
    [.testCaseStarted nid tc.testCaseId attempt clock cfg.workerId],
    [], [], .unknown, .unknown⟩

/-- The state after the `BeforeHooks` phase of the attempt (§4.3). -/
def stateAfterBeforeHooks (cfg : RunnerOptions) (tc : TestCase)
    (attempt clock nid : Nat) : RunState :=
  tc.beforeHooks.foldl (runCaseHookStep cfg attempt nid true none)
    (initialState cfg tc attempt clock nid)

/-- The state after the pickle-step phase of the attempt (§4.3). -/
def stateAfterPickleSteps (cfg : RunnerOptions) (tc : TestCase)
    (attempt clock nid : Nat) : RunState :=
  tc.pickleSteps.foldl (runPickleStep cfg attempt nid)
    (stateAfterBeforeHooks cfg tc attempt clock nid)

/-- Modelled from the spec: the attempt's aggregate status: the worst
pickle-step result, or the worst hook result when there are no pickle
steps (§4.1). -/
def attemptAggregate (cfg : RunnerOptions) (tc : TestCase)
    (attempt clock nid : Nat) : Status :=
  if tc.pickleSteps.isEmpty then (stateAfterPickleSteps cfg tc attempt clock nid).hookWorst
  else (stateAfterPickleSteps cfg tc attempt clock nid).pickleWorst

/-- Modelled from the spec: the retry decision: FAILED is retriable and
the retry budget for this attempt index is not exhausted (§4.3). -/
def attemptWillBeRetried (cfg : RunnerOptions) (tc : TestCase)
    (attempt clock nid : Nat) : Bool :=
  decide (attemptAggregate cfg tc attempt clock nid = .failed ∧ attempt < cfg.retries)

/-- The state after the `AfterHooks` phase: After hooks receive the
attempt's final retry decision as their `willBeRetried` hint (§4.3). -/
def stateAfterAfterHooks (cfg : RunnerOptions) (tc : TestCase)
    (attempt clock nid : Nat) : RunState :=
  tc.afterHooks.foldl
    (runCaseHookStep cfg attempt nid false (some (attemptWillBeRetried cfg tc attempt clock nid)))
    (stateAfterPickleSteps cfg tc attempt clock nid)

/-- Modelled from the spec: one attempt of the state machine (§4.3):
case-started, Before hooks, pickle steps (each BeforeStep → Step →
AfterStep), After hooks, then case-finished carrying the retry
decision (§4.3, §4.4). -/
def runAttempt (cfg : RunnerOptions) (tc : TestCase)
    (attempt : Nat) (clock : Nat) (nid : Nat) : AttemptOut :=
  ⟨(stateAfterAfterHooks cfg tc attempt clock nid).envelopes ++
      [.testCaseFinished nid (stateAfterAfterHooks cfg tc attempt clock nid).clock
        (attemptWillBeRetried cfg tc attempt clock nid)],
    (stateAfterAfterHooks cfg tc attempt clock nid).hookCalls,
    (stateAfterAfterHooks cfg tc attempt clock nid).invocations,
    attemptAggregate cfg tc attempt clock nid,
    attemptWillBeRetried cfg tc attempt clock nid,
    (stateAfterAfterHooks cfg tc attempt clock nid).clock, nid + 1⟩

/-- The observable outcome of a whole `run()` call: the envelope stream,
the hook-invocation log, the definition-invocation log, and the returned
terminal status. -/
structure RunOutcome where
  envelopes : List Envelope
  hookCalls : List HookCall
  invocations : List (Nat × Nat)
  finalStatus : Status
deriving DecidableEq, Repr

/-- Modelled from the spec: the retry loop (§4.3): run an attempt; if its
retry decision is positive, re-run the full sequence with attempt index
+1 against the same TestCase, concatenating the streams; otherwise the
attempt is terminal and its aggregate status is returned. -/
def runLoop (cfg : RunnerOptions) (tc : TestCase) :
    Nat → Nat → Nat → Nat → RunOutcome
  | budget, attempt, clock, nid =>
    let a := runAttempt cfg tc attempt clock nid
    if a.willBeRetried then
      match budget with
      | b + 1 =>
          let rest := runLoop cfg tc b (attempt + 1) a.clock a.nextId
          ⟨a.envelopes ++ rest.envelopes, a.hookCalls ++ rest.hookCalls,
            a.invocations ++ rest.invocations, rest.finalStatus⟩
      | 0 => ⟨a.envelopes, a.hookCalls, a.invocations, a.aggregate⟩
    else ⟨a.envelopes, a.hookCalls, a.invocations, a.aggregate⟩

/-- Modelled from the spec: `run()` — attempts numbered from 0, with at
most `retries` re-runs (§4.3, §6). -/
def run (cfg : RunnerOptions) (tc : TestCase) (clock : Nat) (nid : Nat) : RunOutcome :=
  runLoop cfg tc cfg.retries 0 clock nid

/-! ## A well-formedness checker for the emitted envelope stream -/

/-- Decides the lifecycle invariant of the envelope stream (§3, §4.4): the
stream is a sequence of attempt blocks; each block opens with exactly one
case-started, continues with step-started/step-finished pairs in which
every step-started is followed, before any other step-started, by exactly
one step-finished for the same test-step identifier and the same attempt
id, and closes with exactly one case-finished for that attempt id.  The
first argument is `none` between attempts and `some cid` inside the
attempt whose case-started carried id `cid`. -/
def checkStream : Option Nat → List Envelope → Bool
  | none, [] => true
  | none, .testCaseStarted id0 _ _ _ _ :: rest => checkStream (some id0) rest
  | some cid, .testCaseFinished cid2 _ _ :: rest =>
      decide (cid2 = cid) && checkStream none rest
  | some cid, .testStepStarted cid1 sid1 _ :: .testStepFinished cid2 sid2 _ _ :: rest =>
      decide (cid1 = cid) && decide (cid2 = cid) && decide (sid2 = sid1) &&
        checkStream (some cid) rest
  | _, _ => false

/-- Adjacent step-started/step-finished envelope pairs for one attempt id:
each entry is (testStepId, started timestamp, result, finished timestamp). -/
def pairBlocks (cid : Nat) : List (Nat × Nat × TestStepResult × Nat) → List Envelope
  | [] => []
  | (sid, t1, r, t2) :: ps =>
      .testStepStarted cid sid t1 :: .testStepFinished cid sid r t2 :: pairBlocks cid ps

/-! ## Fixtures mirroring the support code of the test spec -/

/-- A hook body that returns immediately (like `sinon.stub()` in the test spec). -/
def stubHook : HookDef := ⟨fun _ => ⟨0, .pass⟩⟩

/-- A step definition that passes after consuming `d` ticks (like
`Given('a step', function () { clock.tick(1) })`). -/
def passingDef (d : Nat) : StepDef := ⟨"a step", "steps.ts:1", fun _ => ⟨d, .pass⟩⟩

/-- A step definition that throws `v` after consuming `d` ticks. -/
def throwingDef (v : ErrVal) (d : Nat) : StepDef :=
  ⟨"a step", "steps.ts:1", fun _ => ⟨d, .thrown v⟩⟩

/-- The flaky step of the test spec: throws `'Oh no!'` on attempt 0 and
passes on every later attempt, consuming one tick either way. -/
def flakyDef : StepDef :=
  ⟨"a step", "steps.ts:1",
    fun a => if a = 0 then ⟨1, .thrown (.str "Oh no!")⟩ else ⟨1, .pass⟩⟩

/-! ## General lemmas about the runner -/

/-- When the first attempt's retry decision is negative, `run` is exactly
that single attempt. -/
theorem run_terminal (cfg : RunnerOptions) (tc : TestCase) (clock nid : Nat)
    (h : (runAttempt cfg tc 0 clock nid).willBeRetried = false) :
    run cfg tc clock nid =
      ⟨(runAttempt cfg tc 0 clock nid).envelopes,
        (runAttempt cfg tc 0 clock nid).hookCalls,
        (runAttempt cfg tc 0 clock nid).invocations,
        (runAttempt cfg tc 0 clock nid).aggregate⟩ := by
  unfold run runLoop
  simp [h]

theorem pairBlocks_append (cid : Nat) (a b : List (Nat × Nat × TestStepResult × Nat)) :
    pairBlocks cid (a ++ b) = pairBlocks cid a ++ pairBlocks cid b := by
  induction a with
  | nil => simp [pairBlocks]
  | cons p ps ih => obtain ⟨sid, t1, r, t2⟩ := p; simp [pairBlocks, ih]

/-- Crossing a run of well-formed step pairs leaves the checker in the
same in-attempt state. -/
theorem checkStream_pairBlocks (cid : Nat)
    (ps : List (Nat × Nat × TestStepResult × Nat)) (l : List Envelope) :
    checkStream (some cid) (pairBlocks cid ps ++ l) = checkStream (some cid) l := by
  induction ps with
  | nil => simp [pairBlocks]
  | cons p ps ih => obtain ⟨sid, t1, r, t2⟩ := p; simp [pairBlocks, checkStream, ih]

/-- A fold of Before/After hook test steps only appends adjacent
step-started/step-finished pairs for the attempt id. -/
theorem hookFold_shape (cfg : RunnerOptions) (attempt cid : Nat) (ib : Bool)
    (wbr : Option Bool) (l : List (Nat × HookDef)) :
    ∀ s : RunState, ∃ ps,
      (l.foldl (runCaseHookStep cfg attempt cid ib wbr) s).envelopes =
        s.envelopes ++ pairBlocks cid ps := by
  induction l with
  | nil => intro s; exact ⟨[], by simp [pairBlocks]⟩
  | cons h t ih =>
      intro s
      obtain ⟨ps, hps⟩ := ih (runCaseHookStep cfg attempt cid ib wbr s h)
      refine ⟨(h.1, s.clock,
        (caseHookEval cfg attempt ib wbr s.shouldSkip s.firstError h.2 s.clock).1,
        (caseHookEval cfg attempt ib wbr s.shouldSkip s.firstError h.2 s.clock).2.2.1) :: ps, ?_⟩
      rw [List.foldl_cons, hps]
      simp [runCaseHookStep, pairBlocks]

/-- A fold of pickle steps only appends adjacent
step-started/step-finished pairs for the attempt id. -/
theorem pickleFold_shape (cfg : RunnerOptions) (attempt cid : Nat)
    (l : List (Nat × List StepDef)) :
    ∀ s : RunState, ∃ ps,
      (l.foldl (runPickleStep cfg attempt cid) s).envelopes =
        s.envelopes ++ pairBlocks cid ps := by
  induction l with
  | nil => intro s; exact ⟨[], by simp [pairBlocks]⟩
  | cons h t ih =>
      intro s
      obtain ⟨ps, hps⟩ := ih (runPickleStep cfg attempt cid s h)
      refine ⟨(h.1, s.clock,
        (pickleEval cfg attempt h.1 s.shouldSkip s.firstError h.2 s.clock).1,
        (pickleEval cfg attempt h.1 s.shouldSkip s.firstError h.2 s.clock).2.2.2.1) :: ps, ?_⟩
      rw [List.foldl_cons, hps]
      simp [runPickleStep, pairBlocks]

/-- Every attempt's envelope block is exactly: one case-started, a run of
adjacent step pairs, one case-finished, all carrying the attempt id. -/
theorem runAttempt_shape (cfg : RunnerOptions) (tc : TestCase)
    (attempt clock nid : Nat) :
    ∃ ps, (runAttempt cfg tc attempt clock nid).envelopes =
      .testCaseStarted nid tc.testCaseId attempt clock cfg.workerId ::
        (pairBlocks nid ps ++
          [.testCaseFinished nid (stateAfterAfterHooks cfg tc attempt clock nid).clock
            (attemptWillBeRetried cfg tc attempt clock nid)]) := by
  obtain ⟨ps1, h1⟩ := hookFold_shape cfg attempt nid true none tc.beforeHooks
    (initialState cfg tc attempt clock nid)
  obtain ⟨ps2, h2⟩ := pickleFold_shape cfg attempt nid tc.pickleSteps
    (stateAfterBeforeHooks cfg tc attempt clock nid)
  obtain ⟨ps3, h3⟩ := hookFold_shape cfg attempt nid false
    (some (attemptWillBeRetried cfg tc attempt clock nid)) tc.afterHooks
    (stateAfterPickleSteps cfg tc attempt clock nid)
  refine ⟨ps1 ++ ps2 ++ ps3, ?_⟩
  show (stateAfterAfterHooks cfg tc attempt clock nid).envelopes ++ _ = _
  rw [stateAfterAfterHooks, h3, stateAfterPickleSteps, h2, stateAfterBeforeHooks, h1,
    initialState]
  simp [pairBlocks_append]

/-- Checking past one attempt's block returns the checker to the
between-attempts state. -/
theorem checkStream_attempt_append (cfg : RunnerOptions) (tc : TestCase)
    (attempt clock nid : Nat) (l : List Envelope) :
    checkStream none ((runAttempt cfg tc attempt clock nid).envelopes ++ l) =
      checkStream none l := by
  obtain ⟨ps, hps⟩ := runAttempt_shape cfg tc attempt clock nid
  rw [hps]
  simp [checkStream, checkStream_pairBlocks]

theorem checkStream_runAttempt (cfg : RunnerOptions) (tc : TestCase)
    (attempt clock nid : Nat) :
    checkStream none (runAttempt cfg tc attempt clock nid).envelopes = true := by
  have h := checkStream_attempt_append cfg tc attempt clock nid []
  simpa [checkStream] using h

/-- The whole retry loop emits a well-formed stream of attempt blocks. -/
theorem checkStream_runLoop (cfg : RunnerOptions) (tc : TestCase) :
    ∀ (budget attempt clock nid : Nat),
      checkStream none (runLoop cfg tc budget attempt clock nid).envelopes = true := by
  intro budget
  induction budget with
  | zero =>
      intro attempt clock nid
      unfold runLoop
      cases hw : (runAttempt cfg tc attempt clock nid).willBeRetried <;>
        simp [hw, checkStream_runAttempt]
  | succ b ih =>
      intro attempt clock nid
      unfold runLoop
      cases hw : (runAttempt cfg tc attempt clock nid).willBeRetried <;>
        simp [hw, checkStream_runAttempt, checkStream_attempt_append, ih]

/-! ## The claims -/

/-- Claim C1: for every attempt emitted by the Test Case Runner, exactly
one case-started envelope precedes every step-started/step-finished of
that attempt, every step-started for a test-step identifier is followed,
before any other step-started, by exactly one step-finished for the same
identifier, and exactly one case-finished follows the last step-finished
of that attempt — for every configuration and every assembled test case. -/
theorem envelope_stream_well_formed (cfg : RunnerOptions) (tc : TestCase)
    (clock nid : Nat) :
    checkStream none (run cfg tc clock nid).envelopes = true := by
  unfold run
  exact checkStream_runLoop cfg tc cfg.retries 0 clock nid

/-- Claim C2: with a single step that fails on attempt 0 and passes on
attempt 1 and retry budget 1, the stream contains case-finished(attempt 0,
willBeRetried = true) immediately followed by case-started(attempt 1) of
the same testCaseId 1 under a fresh id 4 ≠ 3; `run()` returns PASSED;
and the registered After hook is invoked exactly twice, first with
willBeRetried = true and then with willBeRetried = false. -/
theorem flaky_retry_lifecycle :
    run { retries := 1 } ⟨1, [], [(2, [flakyDef])], [(5, stubHook)]⟩ 0 3 =
      ⟨[.testCaseStarted 3 1 0 0 none,
        .testStepStarted 3 2 0,
        .testStepFinished 3 2
          ⟨.failed, 1, some "Oh no!", some ⟨"Error", some "Oh no!", none⟩⟩ 1,
        .testStepStarted 3 5 1,
        .testStepFinished 3 5 ⟨.passed, 0, none, none⟩ 1,
        .testCaseFinished 3 1 true,
        .testCaseStarted 4 1 1 1 none,
        .testStepStarted 4 2 1,
        .testStepFinished 4 2 ⟨.passed, 1, none, none⟩ 2,
        .testStepStarted 4 5 2,
        .testStepFinished 4 5 ⟨.passed, 0, none, none⟩ 2,
        .testCaseFinished 4 2 false],
       [⟨.after, some (.str "Oh no!"), none, some true⟩,
        ⟨.after, none, none, some false⟩],
       [(2, 0), (2, 1)], .passed⟩ := by
  rfl

/-- Claim C3: every test case with a single passing pickle step and no
hooks emits exactly the 4 envelopes case-started, step-started,
step-finished, case-finished in that order, `run()` returns PASSED, and
the case-finished envelope carries willBeRetried = false — for every
duration, retry budget, worker id, identifiers and clock origin. -/
theorem single_passing_step_lifecycle (d retries tcId sid clock nid : Nat)
    (w : Option String) :
    run { workerId := w, retries := retries }
        ⟨tcId, [], [(sid, [passingDef d])], []⟩ clock nid =
      ⟨[.testCaseStarted nid tcId 0 clock w,
        .testStepStarted nid sid clock,
        .testStepFinished nid sid ⟨.passed, d, none, none⟩ (clock + d),
        .testCaseFinished nid (clock + d) false],
       [], [(sid, 0)], .passed⟩ := by
  have h : (runAttempt { workerId := w, retries := retries }
      ⟨tcId, [], [(sid, [passingDef d])], []⟩ 0 clock nid).willBeRetried = false := rfl
  have e : runAttempt { workerId := w, retries := retries }
      ⟨tcId, [], [(sid, [passingDef d])], []⟩ 0 clock nid =
      ⟨[.testCaseStarted nid tcId 0 clock w,
        .testStepStarted nid sid clock,
        .testStepFinished nid sid ⟨.passed, 0 + d, none, none⟩ (clock + d),
        .testCaseFinished nid (clock + d) false],
       [], [(sid, 0)], .passed, false, clock + d, nid + 1⟩ := rfl
  rw [run_terminal _ _ _ _ h, e]
  simp

/-- Claim C4: a pickle step whose bound definition throws (a string or an
Error value) yields a step-finished result with status FAILED whose
message is the thrown value's display text and whose exception type is
"Error" with the same text as its message, and `run()` returns FAILED for
the attempt — for every thrown value and duration. -/
theorem thrown_value_failed_result (v : ErrVal) (d tcId sid clock nid : Nat) :
    run {} ⟨tcId, [], [(sid, [throwingDef v d])], []⟩ clock nid =
      ⟨[.testCaseStarted nid tcId 0 clock none,
        .testStepStarted nid sid clock,
        .testStepFinished nid sid
          ⟨.failed, d, some v.text, some ⟨"Error", some v.text, v.stack⟩⟩ (clock + d),
        .testCaseFinished nid (clock + d) false],
       [], [(sid, 0)], .failed⟩ := by
  have e : run {} ⟨tcId, [], [(sid, [throwingDef v d])], []⟩ clock nid =
      ⟨[.testCaseStarted nid tcId 0 clock none,
        .testStepStarted nid sid clock,
        .testStepFinished nid sid
          ⟨.failed, 0 + d, some v.text, some ⟨"Error", some v.text, v.stack⟩⟩ (clock + d),
        .testCaseFinished nid (clock + d) false],
       [], [(sid, 0)], .failed⟩ := rfl
  simpa using e

/-- Claim C5, counterexample: with stack-trace filtering NOT requested
(`filterStackTraces := false`), a step that throws the plain string
"fail" is recorded with an exception whose stackTrace is `none`: the
exception of a failed step does not always include a stackTrace when
filtering is off, refuting the claim as stated.  (This is exactly the
`stackTrace: undefined` assertion of the test spec's failing-step case,
which runs with `filterStackTraces: false`.) -/
theorem stack_trace_always_included_counterexample :
    (run { filterStackTraces := false }
        ⟨1, [], [(2, [throwingDef (.str "fail") 0])], []⟩ 0 3).envelopes[2]? =
      some (.testStepFinished 3 2
        ⟨.failed, 0, some "fail", some ⟨"Error", some "fail", none⟩⟩ 0) := rfl

/-- Claim C5, amended: the exception recorded for a failed step includes
the thrown error's stackTrace exactly when stack-trace filtering is not
requested AND the thrown value actually carries a stack trace; it is
omitted when filtering is requested, or when the thrown value (e.g. a
plain string) has no stack trace. -/
theorem stack_trace_presence (m st s : String) :
    (run { filterStackTraces := false }
        ⟨1, [], [(2, [throwingDef (.err m (some st)) 0])], []⟩ 0 3).envelopes[2]? =
      some (.testStepFinished 3 2
        ⟨.failed, 0, some m, some ⟨"Error", some m, some st⟩⟩ 0) ∧
    (run { filterStackTraces := true }
        ⟨1, [], [(2, [throwingDef (.err m (some st)) 0])], []⟩ 0 3).envelopes[2]? =
      some (.testStepFinished 3 2
        ⟨.failed, 0, some m, some ⟨"Error", some m, none⟩⟩ 0) ∧
    (run { filterStackTraces := false }
        ⟨1, [], [(2, [throwingDef (.str s) 0])], []⟩ 0 3).envelopes[2]? =
      some (.testStepFinished 3 2
        ⟨.failed, 0, some s, some ⟨"Error", some s, none⟩⟩ 0) :=
  ⟨rfl, rfl, rfl⟩

/-- Claim C6: a pickle step with zero bound definitions is recorded
UNDEFINED with zero duration, and a pickle step with two or more bound
definitions is recorded AMBIGUOUS with zero duration and a multi-line
message listing each matching definition's pattern and source location;
in neither case is any definition invoked (the invocation log stays
empty). -/
theorem undefined_and_ambiguous_steps (tcId sid clock nid : Nat)
    (d1 d2 : StepDef) (rest : List StepDef) :
    run {} ⟨tcId, [], [(sid, [])], []⟩ clock nid =
      ⟨[.testCaseStarted nid tcId 0 clock none,
        .testStepStarted nid sid clock,
        .testStepFinished nid sid ⟨.undefined, 0, none, none⟩ clock,
        .testCaseFinished nid clock false],
       [], [], .undefined⟩ ∧
    run {} ⟨tcId, [], [(sid, d1 :: d2 :: rest)], []⟩ clock nid =
      ⟨[.testCaseStarted nid tcId 0 clock none,
        .testStepStarted nid sid clock,
        .testStepFinished nid sid
          ⟨.ambiguous, 0,
            some (String.intercalate "\n"
              ("Multiple step definitions match:" ::
                (d1 :: d2 :: rest).map
                  (fun dd => "  " ++ dd.pattern ++ " - " ++ dd.location))),
            none⟩ clock,
        .testCaseFinished nid clock false],
       [], [], .ambiguous⟩ :=
  ⟨rfl, rfl⟩

/-- Claim C7: with steps [A, B] where A fails and B would pass, B is
recorded SKIPPED with zero duration and its definition is never invoked
(the invocation log holds only A), and the attempt's aggregate result is
FAILED — for every thrown value, durations and clock origin. -/
theorem skip_propagation_after_failure (v : ErrVal) (dA dB clock : Nat) :
    run {} ⟨1, [], [(2, [throwingDef v dA]), (4, [passingDef dB])], []⟩ clock 3 =
      ⟨[.testCaseStarted 3 1 0 clock none,
        .testStepStarted 3 2 clock,
        .testStepFinished 3 2
          ⟨.failed, dA, some v.text, some ⟨"Error", some v.text, v.stack⟩⟩ (clock + dA),
        .testStepStarted 3 4 (clock + dA),
        .testStepFinished 3 4 ⟨.skipped, 0, none, none⟩ (clock + dA),
        .testCaseFinished 3 (clock + dA) false],
       [], [(2, 0)], .failed⟩ := by
  have e : run {} ⟨1, [], [(2, [throwingDef v dA]), (4, [passingDef dB])], []⟩ clock 3 =
      ⟨[.testCaseStarted 3 1 0 clock none,
        .testStepStarted 3 2 clock,
        .testStepFinished 3 2
          ⟨.failed, 0 + dA, some v.text, some ⟨"Error", some v.text, v.stack⟩⟩ (clock + dA),
        .testStepStarted 3 4 (clock + dA),
        .testStepFinished 3 4 ⟨.skipped, 0, none, none⟩ (clock + dA),
        .testCaseFinished 3 (clock + dA) false],
       [], [(2, 0)], .failed⟩ := rfl
  simpa using e

/-- Claim C8: in dry-run mode (skip = true) a normally-passing pickle
step is recorded SKIPPED with zero duration, its definition body is never
invoked (the invocation log stays empty, so its side effects do not
occur and the clock does not advance), and the full 4-envelope lifecycle
is still emitted — for every duration, identifiers and clock origin. -/
theorem dry_run_skips_without_invocation (d tcId sid clock nid : Nat) :
    run { skip := true } ⟨tcId, [], [(sid, [passingDef d])], []⟩ clock nid =
      ⟨[.testCaseStarted nid tcId 0 clock none,
        .testStepStarted nid sid clock,
        .testStepFinished nid sid ⟨.skipped, 0, none, none⟩ clock,
        .testCaseFinished nid clock false],
       [], [], .skipped⟩ := rfl

/-- Claim C9: when the single pickle step throws `v`, the BeforeStep hook
is invoked with result and error both absent, while the AfterStep hook
(of the failing step itself — executed, not skipped) and the After hook
are each invoked exactly once and receive as error the identical thrown
value `v`, the first failure of the attempt. -/
theorem hook_error_visibility (v : ErrVal) :
    (run { beforeStepHooks := [stubHook], afterStepHooks := [stubHook] }
        ⟨1, [], [(2, [throwingDef v 0])], [(5, stubHook)]⟩ 0 3).hookCalls =
      [⟨.beforeStep, none, none, none⟩,
       ⟨.afterStep, some v,
         some ⟨.failed, 0, some v.text, some ⟨"Error", some v.text, v.stack⟩⟩, none⟩,
       ⟨.after, some v, none, some false⟩] := rfl

/-- Claim C10: BeforeStep and AfterStep hooks emit no step-started /
step-finished envelopes of their own: one passing step plus a BeforeStep
and an AfterStep hook yields exactly 4 envelopes (though both hooks are
invoked), whereas Before and After hooks are test steps contributing
their own envelope pair each: one step plus Before and After yields
exactly 8 envelopes. -/
theorem step_hooks_emit_no_envelopes :
    run { beforeStepHooks := [stubHook], afterStepHooks := [stubHook] }
        ⟨1, [], [(2, [passingDef 1])], []⟩ 0 3 =
      ⟨[.testCaseStarted 3 1 0 0 none,
        .testStepStarted 3 2 0,
        .testStepFinished 3 2 ⟨.passed, 1, none, none⟩ 1,
        .testCaseFinished 3 1 false],
       [⟨.beforeStep, none, none, none⟩,
        ⟨.afterStep, none, some ⟨.passed, 1, none, none⟩, none⟩],
       [(2, 0)], .passed⟩ ∧
    run {} ⟨1, [(9, stubHook)], [(2, [passingDef 1])], [(10, stubHook)]⟩ 0 3 =
      ⟨[.testCaseStarted 3 1 0 0 none,
        .testStepStarted 3 9 0,
        .testStepFinished 3 9 ⟨.passed, 0, none, none⟩ 0,
        .testStepStarted 3 2 0,
        .testStepFinished 3 2 ⟨.passed, 1, none, none⟩ 1,
        .testStepStarted 3 10 1,
        .testStepFinished 3 10 ⟨.passed, 0, none, none⟩ 1,
        .testCaseFinished 3 1 false],
       [⟨.before, none, none, none⟩, ⟨.after, none, none, some false⟩],
       [(2, 0)], .passed⟩ :=
  ⟨rfl, rfl⟩

end Cucumber
